import Mathlib

/-!
Verification of the nhllines probability-estimation and edge-evaluation
engine.  The Python source (`odds_fetcher.py`, `model.py`,
`ev_calculator.py`) is shallowly embedded: floating-point arithmetic is
idealised as exact rational arithmetic (`ℚ`), Python `dict`s with a fixed
key set become structures, keys that may be absent become `Option` fields,
and code paths that raise `ZeroDivisionError` are modelled as `Option`
results (`none` = the call raises).  Presentation-only string formatting
(the `pick` labels built with f-strings) is omitted from the embedded
records; every numeric field is kept.
-/

/-! ## odds_fetcher.py: odds conversions -/

/-- Embedding of `american_to_decimal` (odds_fetcher.py lines 140-145).  The `american ≤ 0`
branch computes `1 + 100/abs(american)`, which raises `ZeroDivisionError`
when `american = 0`; that failure is modelled as `none`. -/
def american_to_decimal (american : ℤ) : Option ℚ :=
  if american > 0 then
    some (1 + (american : ℚ) / 100)
  else if american = 0 then
    none
  else
    some (1 + 100 / |(american : ℚ)|)

/-- Embedding of `american_to_implied_prob` (odds_fetcher.py lines 148-153).  Both
branches have a nonzero denominator, so the function is total. -/
def american_to_implied_prob (american : ℤ) : ℚ :=
  if american < 0 then
    |(american : ℚ)| / (|(american : ℚ)| + 100)
  else
    100 / ((american : ℚ) + 100)

/-! ## ev_calculator.py: calculate_ev and kelly_criterion -/

/-- The dict returned by `calculate_ev` (ev_calculator.py lines 35-47). -/
structure EvResult where
  ev : ℚ
  roi : ℚ
  edge : ℚ
  true_prob : ℚ
  implied_prob : ℚ
  american_odds : ℤ
  decimal_odds : ℚ
  stake : ℚ
  profit_if_win : ℚ
  loss_if_lose : ℚ
  is_positive_ev : Bool
deriving DecidableEq, Repr

/-- Embedding of `calculate_ev` (ev_calculator.py lines 10-47).  The source first
converts the odds (raising when `american_odds = 0`), then computes
`roi = ev / stake`, which raises when `stake = 0`; both failures are
modelled as `none`. -/
def calculate_ev (true_prob : ℚ) (american_odds : ℤ) (stake : ℚ := 1) :
    Option EvResult :=
  match american_to_decimal american_odds with
  | none => none
  | some decimal_odds =>
    let implied_prob := american_to_implied_prob american_odds
    let profit_if_win := stake * (decimal_odds - 1)
    let loss_if_lose := stake
    let ev := true_prob * profit_if_win - (1 - true_prob) * loss_if_lose
    if stake = 0 then none
    else
      let roi := ev / stake
      let edge := true_prob - implied_prob
      some {
        ev := ev
        roi := roi
        edge := edge
        true_prob := true_prob
        implied_prob := implied_prob
        american_odds := american_odds
        decimal_odds := decimal_odds
        stake := stake
        profit_if_win := profit_if_win
        loss_if_lose := loss_if_lose
        is_positive_ev := decide (ev > 0) }

/-- Embedding of `kelly_criterion` (ev_calculator.py lines 311-328).  The division
`(b*p - q)/b` raises exactly when `b = decimal_odds - 1 = 0`; that failure
is modelled as `none`. -/
def kelly_criterion (true_prob decimal_odds : ℚ) (fraction : ℚ := 1/4) :
    Option ℚ :=
  let b := decimal_odds - 1
  let p := true_prob
  let q := 1 - p
  if b = 0 then none
  else
    let full_kelly := (b * p - q) / b
    if full_kelly ≤ 0 then some 0
    else some (full_kelly * fraction)

/-! ## model.py: data model -/

/-- A blended team profile: the four keys read by `calculate_similarity`
(model.py lines 39-91). -/
structure Stats where
  win_pct : ℚ
  avg_gf : ℚ
  avg_ga : ℚ
  points_pct : ℚ
deriving DecidableEq, Repr

/-- A finalized historical game with its derived fields, as read by
`calculate_similarity` and `estimate_probabilities`. -/
structure Game where
  home_team : String
  away_team : String
  home_win : Bool
  total_goals : ℚ
  goal_diff : ℚ
deriving DecidableEq, Repr

/-- A team's season-standing record, as read through
`standings.get(team, {}).get(key, default)` (model.py lines 114-157). -/
structure Standing where
  win_pct : ℚ
  points_pct : ℚ
  goals_for_pg : ℚ
  goals_against_pg : ℚ
deriving DecidableEq, Repr

/-- A team's recent-form record; a missing team defaults to
`{win_pct 0.5, avg_gf 3.0, avg_ga 3.0}` (model.py lines 116-117). -/
structure Form where
  win_pct : ℚ
  avg_gf : ℚ
  avg_ga : ℚ
deriving DecidableEq, Repr

/-! ## model.py: similarity scorer -/

/-- Embedding of `calculate_similarity` (model.py lines 12-98).  The `h2h` argument of
the source is never read in the body and is omitted here.  `max_score` is
the sum of the seven factor weights, accumulated exactly as in the
source. -/
def calculate_similarity (home_stats away_stats hist_home_stats hist_away_stats : Stats)
    (hist_game : Game) (current_home current_away : String) : ℚ :=
  let current_diff := home_stats.win_pct - away_stats.win_pct
  let hist_diff := hist_home_stats.win_pct - hist_away_stats.win_pct
  let quality_sim := 1 - min |current_diff - hist_diff| 1
  let off_sim := 1 - min (|home_stats.avg_gf - hist_home_stats.avg_gf| / 3) 1
  let off_sim2 := 1 - min (|away_stats.avg_gf - hist_away_stats.avg_gf| / 3) 1
  let def_sim := 1 - min (|home_stats.avg_ga - hist_home_stats.avg_ga| / 3) 1
  let def_sim2 := 1 - min (|away_stats.avg_ga - hist_away_stats.avg_ga| / 3) 1
  let bonus : ℚ :=
    if hist_game.home_team = current_home ∧ hist_game.away_team = current_away then 2
    else if hist_game.home_team = current_away ∧ hist_game.away_team = current_home then 2 * (1/2)
    else 0
  let ppct_sim := 1 -
    (|home_stats.points_pct - hist_home_stats.points_pct| +
     |away_stats.points_pct - hist_away_stats.points_pct|) / 2
  let score := 3 * quality_sim + 2 * off_sim + 2 * off_sim2 +
    2 * def_sim + 2 * def_sim2 + bonus + 2 * max ppct_sim 0
  let max_score : ℚ := 3 + 2 + 2 + 2 + 2 + 2 + 2
  if max_score > 0 then score / max_score else 0

/-! ## model.py: similar-game selector -/

/-- The 0.4·season + 0.6·recent-form profile blend (model.py lines
120-131, repeated verbatim for the historical sides at lines 146-157).
Missing standings entries and missing keys fall back to the league-average
defaults used by the `.get` calls. -/
def teamStats (standing : Option Standing) (form : Option Form) : Stats :=
  let f := form.getD { win_pct := 1/2, avg_gf := 3, avg_ga := 3 }
  { win_pct := 2/5 * (standing.map Standing.win_pct).getD (1/2) + 3/5 * f.win_pct
    avg_gf := 2/5 * (standing.map Standing.goals_for_pg).getD 3 + 3/5 * f.avg_gf
    avg_ga := 2/5 * (standing.map Standing.goals_against_pg).getD 3 + 3/5 * f.avg_ga
    points_pct := (standing.map Standing.points_pct).getD (1/2) }

/-- Stable insertion step: the incoming element `b` stays after every
element `c` with `keep c b = true`. -/
def insertKeep (keep : α → α → Bool) (b : α) : List α → List α
  | [] => [b]
  | c :: cs => if keep c b then c :: insertKeep keep b cs else b :: c :: cs

/-- Stable sort (the semantics of Python's stable `list.sort`): an element
ends up after exactly those earlier-sorted elements the `keep` predicate
retains before it.  With `keep c b = (b.key < c.key)` this is the stable
descending sort by `key` that the source uses. -/
def sortKeep (keep : α → α → Bool) : List α → List α
  | [] => []
  | b :: bs => insertKeep keep b (sortKeep keep bs)

/-- Embedding of `find_similar_games` (model.py lines 101-173): score every historical
game, keep those at or above the threshold, sort by similarity descending
(stable), truncate to `n_similar`. -/
def find_similar_games (home_team away_team : String)
    (standings : String → Option Standing) (all_games : List Game)
    (team_forms : String → Option Form)
    (n_similar : ℕ := 50) (min_similarity : ℚ := 11/20) :
    List (Game × ℚ) :=
  let home_stats := teamStats (standings home_team) (team_forms home_team)
  let away_stats := teamStats (standings away_team) (team_forms away_team)
  let scored_games := all_games.foldr (fun game acc =>
    let hist_home_stats := teamStats (standings game.home_team) (team_forms game.home_team)
    let hist_away_stats := teamStats (standings game.away_team) (team_forms game.away_team)
    let similarity := calculate_similarity home_stats away_stats
      hist_home_stats hist_away_stats game home_team away_team
    if similarity ≥ min_similarity then (game, similarity) :: acc else acc) []
  (sortKeep (fun c b => decide (b.2 < c.2)) scored_games).take n_similar

/-! ## model.py: probability estimator -/

/-- Python's built-in `round`: round half to even (used on
`expected_total * 2` at model.py line 244). -/
def roundHalfEven (q : ℚ) : ℤ :=
  let f := ⌊q⌋
  let r := q - f
  if r < 1/2 then f
  else if 1/2 < r then f + 1
  else if 2 ∣ f then f else f + 1

/-- Embedding of `_goal_distribution` (model.py lines 300-309): the distinct totals in
first-occurrence order, counted, normalised by the list length, then
sorted by key ascending. -/
def goalDistribution (totals : List ℚ) : List (ℚ × ℚ) :=
  match totals with
  | [] => []
  | _ :: _ =>
    (sortKeep (fun c b => decide (c < b)) totals.dedup).map
      (fun k => (k, (totals.count k : ℚ) / totals.length))

/-- The dict returned by `estimate_probabilities`.  The empty-input branch
(model.py lines 190-200) returns only the first eight keys; the keys it
omits are `Option` fields defaulting to `none`. -/
structure Estimate where
  home_win_prob : ℚ
  away_win_prob : ℚ
  expected_total : ℚ
  over_prob : ℚ
  under_prob : ℚ
  home_cover_prob : ℚ
  n_games : ℕ
  confidence : ℚ
  away_cover_prob : Option ℚ := none
  total_line : Option ℚ := none
  spread_line : Option ℚ := none
  avg_similarity : Option ℚ := none
  raw_home_win_prob : Option ℚ := none
  raw_over_prob : Option ℚ := none
  goal_distribution : Option (List (ℚ × ℚ)) := none
deriving DecidableEq, Repr

/-- The regression-to-the-mean shrinkage applied at model.py lines
275-279: `shrunk = raw·conf + 0.5·(1 − conf)`. -/
def regress (raw conf : ℚ) : ℚ := raw * conf + 1/2 * (1 - conf)

/-- Embedding of `estimate_probabilities` (model.py lines 176-297). -/
def estimate_probabilities (similar_games : List (Game × ℚ))
    (home_team away_team : String)
    (total_line : Option ℚ := none) (spread_line : Option ℚ := none) :
    Estimate :=
  match similar_games with
  | [] =>
    { home_win_prob := 1/2
      away_win_prob := 1/2
      expected_total := 6
      over_prob := 1/2
      under_prob := 1/2
      home_cover_prob := 1/2
      n_games := 0
      confidence := 0 }
  | _ :: _ =>
    let total_weight0 := (similar_games.map (fun gs => gs.2 ^ 2)).sum
    let weighted_home_wins :=
      (similar_games.map (fun gs => if gs.1.home_win then gs.2 ^ 2 else 0)).sum
    let weighted_total_goals :=
      (similar_games.map (fun gs => gs.2 ^ 2 * gs.1.total_goals)).sum
    let weighted_overs :=
      (similar_games.map (fun gs =>
        match total_line with
        | some line =>
          if gs.1.total_goals > line then gs.2 ^ 2
          else if gs.1.total_goals = line then gs.2 ^ 2 * (1/2)
          else 0
        | none => 0)).sum
    let weighted_home_covers :=
      (similar_games.map (fun gs =>
        match spread_line with
        | some line =>
          if gs.1.goal_diff + line > 0 then gs.2 ^ 2
          else if gs.1.goal_diff + line = 0 then gs.2 ^ 2 * (1/2)
          else 0
        | none => 0)).sum
    let total_weight := if total_weight0 = 0 then 1 else total_weight0
    let home_win_prob := weighted_home_wins / total_weight
    let expected_total := weighted_total_goals / total_weight
    let line_and_over : ℚ × ℚ :=
      match total_line with
      | none =>
        let line := (roundHalfEven (expected_total * 2) : ℚ) / 2
        let over_count :=
          (similar_games.filter (fun gs => decide (gs.1.total_goals > line))).length
        let push_count :=
          (similar_games.filter (fun gs => decide (gs.1.total_goals = line))).length
        (line, ((over_count : ℚ) + (push_count : ℚ) * (1/2)) / (similar_games.length : ℚ))
      | some line => (line, weighted_overs / total_weight)
    let over_prob := line_and_over.2
    let home_cover_prob :=
      match spread_line with
      | some _ => weighted_home_covers / total_weight
      | none => 1/2
    let avg_similarity :=
      (similar_games.map Prod.snd).sum / (similar_games.length : ℚ)
    let top5_avg :=
      ((similar_games.take 5).map Prod.snd).sum / ((min 5 similar_games.length : ℕ) : ℚ)
    let high_sim_count :=
      (similar_games.filter (fun gs => decide (gs.2 > 3/4))).length
    let exact_matchups :=
      (similar_games.filter (fun gs =>
        gs.1.home_team == home_team && gs.1.away_team == away_team)).length
    let quality_conf := min (1/2) (top5_avg * (11/20))
    let volume_conf := min (3/10) ((high_sim_count : ℚ) / 25)
    let exact_conf := min (1/5) ((exact_matchups : ℚ) / 5)
    let confidence := min (19/20) (quality_conf + volume_conf + exact_conf)
    let regressed_home_prob := regress home_win_prob confidence
    let regressed_over_prob := regress over_prob confidence
    let spread_conf := confidence * (3/5)
    let regressed_cover_prob := regress home_cover_prob spread_conf
    { home_win_prob := regressed_home_prob
      away_win_prob := 1 - regressed_home_prob
      expected_total := expected_total
      over_prob := regressed_over_prob
      under_prob := 1 - regressed_over_prob
      home_cover_prob := regressed_cover_prob
      away_cover_prob := some (1 - regressed_cover_prob)
      total_line := some line_and_over.1
      spread_line := spread_line
      n_games := similar_games.length
      avg_similarity := some avg_similarity
      confidence := confidence
      raw_home_win_prob := some home_win_prob
      raw_over_prob := some over_prob
      goal_distribution :=
        some (goalDistribution (similar_games.map (fun gs => gs.1.total_goals))) }

/-! ## model.py: market blender -/

/-- The market-consensus probabilities read by `blend_model_and_market`;
each key may be absent (`.get(key, 0.5)`). -/
structure MarketProbs where
  home_win_prob : Option ℚ := none
  over_prob : Option ℚ := none
  spread_home_cover_prob : Option ℚ := none
deriving DecidableEq, Repr

/-- The dict returned by `blend_model_and_market` (model.py lines
329-355). -/
structure Blended where
  home_win_prob : ℚ
  away_win_prob : ℚ
  over_prob : ℚ
  under_prob : ℚ
  home_cover_prob : ℚ
  away_cover_prob : ℚ
  model_confidence : ℚ
  effective_model_weight : ℚ
deriving DecidableEq, Repr

/-- Embedding of `blend_model_and_market` (model.py lines 312-355). -/
def blend_model_and_market (model_probs : Estimate) (market_probs : MarketProbs)
    (model_weight : ℚ := 7/20) : Blended :=
  let confidence := model_probs.confidence
  let effective_weight := model_weight * confidence
  let home := effective_weight * model_probs.home_win_prob +
    (1 - effective_weight) * (market_probs.home_win_prob.getD (1/2))
  let over := effective_weight * model_probs.over_prob +
    (1 - effective_weight) * (market_probs.over_prob.getD (1/2))
  let cover := effective_weight * model_probs.home_cover_prob +
    (1 - effective_weight) * (market_probs.spread_home_cover_prob.getD (1/2))
  { home_win_prob := home
    away_win_prob := 1 - home
    over_prob := over
    under_prob := 1 - over
    home_cover_prob := cover
    away_cover_prob := 1 - cover
    model_confidence := confidence
    effective_model_weight := effective_weight }

/-! ## ev_calculator.py: candidate generation -/

/-- A best-odds moneyline entry: `{"price": ..., "book": ...}`. -/
structure OddsEntry where
  price : ℤ
  book : String
deriving DecidableEq, Repr

/-- A best-odds spread/total entry: `{"price": ..., "book": ..., "point": ...}`. -/
structure PointEntry where
  price : ℤ
  book : String
  point : ℚ
deriving DecidableEq, Repr

/-- The optional `"thescore"` sub-dict: each moneyline key may be absent
(`"ml_home" in thescore`). -/
structure ThescoreOdds where
  ml_home : Option ℤ := none
  ml_away : Option ℤ := none
deriving DecidableEq, Repr

/-- The `best_odds` structure consumed by `evaluate_all_bets`.  A `none`
market side is the source's falsy (`None`) entry; a missing or empty
`"thescore"` dict is `thescore = none`. -/
structure BestOdds where
  moneyline_home : Option OddsEntry := none
  moneyline_away : Option OddsEntry := none
  spread_home : Option PointEntry := none
  spread_away : Option PointEntry := none
  total_over : Option PointEntry := none
  total_under : Option PointEntry := none
  thescore : Option ThescoreOdds := none
deriving DecidableEq, Repr

/-- One bet recommendation: the dict appended at ev_calculator.py lines
89-97 (and its five siblings).  The presentation-only `pick` label (an
f-string over team name and point) is omitted; every numeric field of the
spliced `ev_data` is kept. -/
structure Bet where
  game : String
  bet_type : String
  book : String
  odds : ℤ
  ev : ℚ
  roi : ℚ
  edge : ℚ
  true_prob : ℚ
  implied_prob : ℚ
  decimal_odds : ℚ
  stake : ℚ
  profit_if_win : ℚ
  loss_if_lose : ℚ
  is_positive_ev : Bool
  confidence : ℚ
deriving DecidableEq, Repr

/-- Assemble a `Bet` record from a market label, a price, the spliced
`ev_data` and the matchup confidence. -/
def mkBet (game_label bt book : String) (odds : ℤ) (e : EvResult) (conf : ℚ) : Bet :=
  { game := game_label
    bet_type := bt
    book := book
    odds := odds
    ev := e.ev
    roi := e.roi
    edge := e.edge
    true_prob := e.true_prob
    implied_prob := e.implied_prob
    decimal_odds := e.decimal_odds
    stake := e.stake
    profit_if_win := e.profit_if_win
    loss_if_lose := e.loss_if_lose
    is_positive_ev := e.is_positive_ev
    confidence := conf }

/-- One main-market evaluation step of `evaluate_all_bets`: compute
`ev_data` (propagating a `ZeroDivisionError` as `none`) and keep the bet
only when `min_edge ≤ edge ≤ max_edge`. -/
def tryMarket (game_label bt book : String) (odds : ℤ)
    (true_prob stake min_edge max_edge conf : ℚ) : Option (List Bet) :=
  match calculate_ev true_prob odds stake with
  | none => none
  | some e =>
    some (if min_edge ≤ e.edge ∧ e.edge ≤ max_edge then
      [mkBet game_label bt book odds e conf] else [])

/-- Evaluate an optional moneyline market side (`if best_odds[...]:`). -/
def evalEntry (game_label bt : String) (entry : Option OddsEntry)
    (true_prob stake min_edge max_edge conf : ℚ) : Option (List Bet) :=
  match entry with
  | none => some []
  | some e => tryMarket game_label bt e.book e.price true_prob stake min_edge max_edge conf

/-- Evaluate an optional spread/total market side. -/
def evalPoint (game_label bt : String) (entry : Option PointEntry)
    (true_prob stake min_edge max_edge conf : ℚ) : Option (List Bet) :=
  match entry with
  | none => some []
  | some e => tryMarket game_label bt e.book e.price true_prob stake min_edge max_edge conf

/-- One theScore moneyline evaluation step: the candidate is kept
whenever `min_edge ≤ edge` — the source applies no `max_edge` cap here. -/
def tryThescoreMl (game_label : String) (price : Option ℤ)
    (true_prob stake min_edge conf : ℚ) : Option (List Bet) :=
  match price with
  | none => some []
  | some p =>
    match calculate_ev true_prob p stake with
    | none => none
    | some e =>
      some (if min_edge ≤ e.edge then
        [mkBet game_label "Moneyline" "thescore" p e conf] else [])

/-- Embedding of `_evaluate_thescore_odds` (ev_calculator.py lines 208-245).  Note the
source filters these candidates by `min_edge` only: the `max_edge` cap is
not applied here. -/
def evaluate_thescore_odds (game_label home_team away_team : String)
    (blended_probs : Blended) (best_odds : BestOdds)
    (stake min_edge : ℚ) : Option (List Bet) :=
  match best_odds.thescore with
  | none => some []
  | some ts =>
    match tryThescoreMl game_label ts.ml_home blended_probs.home_win_prob
        stake min_edge blended_probs.model_confidence with
    | none => none
    | some home_bets =>
      match tryThescoreMl game_label ts.ml_away blended_probs.away_win_prob
          stake min_edge blended_probs.model_confidence with
      | none => none
      | some away_bets => some (home_bets ++ away_bets)

/-- The conservative raise of the edge floor (ev_calculator.py line 77):
`min_edge = max(min_edge, 0.03)`. -/
def effectiveMinEdge (conservative : Bool) (min_edge : ℚ) : ℚ :=
  if conservative then max min_edge (3/100) else min_edge

/-- A spread market side, skipped entirely in conservative mode
(ev_calculator.py line 119). -/
def condSpread (conservative : Bool) (game_label bt : String)
    (entry : Option PointEntry) (tp st me mx cf : ℚ) : Option (List Bet) :=
  if conservative then some [] else evalPoint game_label bt entry tp st me mx cf

/-- Embedding of `evaluate_all_bets` (ev_calculator.py lines 50-205).  The source also
executes `min_confidence = max(min_confidence, 0.5)` in the conservative
branch, but `min_confidence` is never read again after the gate at line
72, so the raised value has no effect; the dead store is not modelled.
The final sort is Python's stable `list.sort(key=ev, reverse=True)`. -/
def evaluate_all_bets (game_label home_team away_team : String)
    (blended_probs : Blended) (best_odds : BestOdds)
    (stake : ℚ := 1) (min_edge : ℚ := 1/50) (min_confidence : ℚ := 3/10)
    (conservative : Bool := false) (max_edge : ℚ := 3/20) :
    Option (List Bet) :=
  if blended_probs.model_confidence < min_confidence then some []
  else
    match evalEntry game_label "Moneyline" best_odds.moneyline_home
        blended_probs.home_win_prob stake (effectiveMinEdge conservative min_edge)
        max_edge blended_probs.model_confidence with
    | none => none
    | some ml_home =>
    match evalEntry game_label "Moneyline" best_odds.moneyline_away
        blended_probs.away_win_prob stake (effectiveMinEdge conservative min_edge)
        max_edge blended_probs.model_confidence with
    | none => none
    | some ml_away =>
    match condSpread conservative game_label "Spread" best_odds.spread_home
        blended_probs.home_cover_prob stake (effectiveMinEdge conservative min_edge)
        max_edge blended_probs.model_confidence with
    | none => none
    | some sp_home =>
    match condSpread conservative game_label "Spread" best_odds.spread_away
        blended_probs.away_cover_prob stake (effectiveMinEdge conservative min_edge)
        max_edge blended_probs.model_confidence with
    | none => none
    | some sp_away =>
    match evalPoint game_label "Total" best_odds.total_over
        blended_probs.over_prob stake (effectiveMinEdge conservative min_edge)
        max_edge blended_probs.model_confidence with
    | none => none
    | some t_over =>
    match evalPoint game_label "Total" best_odds.total_under
        blended_probs.under_prob stake (effectiveMinEdge conservative min_edge)
        max_edge blended_probs.model_confidence with
    | none => none
    | some t_under =>
    match evaluate_thescore_odds game_label home_team away_team
        blended_probs best_odds stake (effectiveMinEdge conservative min_edge) with
    | none => none
    | some ts_bets =>
      some (sortKeep (fun c b => decide (b.ev < c.ev))
        (ml_home ++ ml_away ++ sp_home ++ sp_away ++ t_over ++ t_under ++ ts_bets))

/-! ## Helper lemmas -/

theorem mem_insertKeep {α : Type} (keep : α → α → Bool) (b a : α) (l : List α) :
    a ∈ insertKeep keep b l ↔ a = b ∨ a ∈ l := by
  induction l with
  | nil => simp [insertKeep]
  | cons c cs ih =>
    simp only [insertKeep]
    split
    · simp only [List.mem_cons, ih]
      tauto
    · simp [List.mem_cons]

theorem mem_sortKeep {α : Type} (keep : α → α → Bool) (a : α) (l : List α) :
    a ∈ sortKeep keep l ↔ a ∈ l := by
  induction l with
  | nil => simp [sortKeep]
  | cons b bs ih => simp [sortKeep, mem_insertKeep, ih]

theorem american_to_decimal_eq_none (a : ℤ) :
    american_to_decimal a = none ↔ a = 0 := by
  unfold american_to_decimal
  split
  · simp
    omega
  · split <;> simp_all

/-! ## Claim theorems -/

/-- C5: on empty input the pipeline degrades to the documented neutral
defaults: `find_similar_games` on an empty historical collection returns
`[]`, and `estimate_probabilities []` returns exactly the neutral-default
estimate (0.5 win/over/under/cover probabilities, expected total 6.0,
confidence 0, 0 games), reaching no division at all. -/
theorem empty_inputs_neutral_defaults (h a : String)
    (st : String → Option Standing) (tf : String → Option Form)
    (n : ℕ) (ms : ℚ) (tl sl : Option ℚ) :
    find_similar_games h a st [] tf n ms = [] ∧
    (estimate_probabilities [] h a tl sl).home_win_prob = 1/2 ∧
    (estimate_probabilities [] h a tl sl).away_win_prob = 1/2 ∧
    (estimate_probabilities [] h a tl sl).expected_total = 6 ∧
    (estimate_probabilities [] h a tl sl).over_prob = 1/2 ∧
    (estimate_probabilities [] h a tl sl).under_prob = 1/2 ∧
    (estimate_probabilities [] h a tl sl).home_cover_prob = 1/2 ∧
    (estimate_probabilities [] h a tl sl).confidence = 0 ∧
    (estimate_probabilities [] h a tl sl).n_games = 0 :=
  ⟨by simp [find_similar_games, sortKeep], rfl, rfl, rfl, rfl, rfl, rfl, rfl, rfl⟩

/-- C6 counterexample: `kelly_criterion` with `decimal_odds = 0.5 ≤ 1`
does not fail; it returns the ordinary value 3/8, refuting the claim that
every `decimal_odds ≤ 1` is reported as an invalid-input error. -/
theorem kelly_below_one_returns_normally :
    ((1:ℚ)/2 ≤ 1) ∧ kelly_criterion (1/2) (1/2) (1/4) = some (3/8) := by
  constructor
  · norm_num
  · norm_num [kelly_criterion]

/-- C6 (amended): `calculate_ev` fails exactly when `stake = 0` or
`american_odds = 0` (both raise `ZeroDivisionError` in the source), and
`kelly_criterion` fails exactly when `decimal_odds = 1`; every other
input returns a normal value — in particular `decimal_odds < 1` does not
fail. -/
theorem division_error_conditions (p s f d : ℚ) (a : ℤ) :
    (calculate_ev p a s = none ↔ a = 0 ∨ s = 0) ∧
    (kelly_criterion p d f = none ↔ d = 1) := by
  constructor
  · unfold calculate_ev
    cases h : american_to_decimal a with
    | none =>
      simp [(american_to_decimal_eq_none a).mp h]
    | some dq =>
      have ha : ¬a = 0 := by
        intro h0
        rw [(american_to_decimal_eq_none a).mpr h0] at h
        exact Option.noConfusion h
      simp only []
      split <;> simp_all
  · unfold kelly_criterion
    by_cases hd : d - 1 = 0
    · rw [if_pos hd]
      simp [show d = 1 by linarith]
    · rw [if_neg hd]
      have hne : ¬d = 1 := fun h1 => hd (by rw [h1]; ring)
      simp only []
      split <;> simp_all

/-- C9: for `true_prob ∈ [0,1]`, `decimal_odds > 1` and `fraction ≥ 0`,
`kelly_criterion` returns exactly `max(0, (b·p − q)/b)·fraction` with
`b = decimal_odds − 1` and `q = 1 − p`; that value is never negative, and
`kelly_criterion(0.5, 1.5, 0.25) = 0`. -/
theorem kelly_fractional_formula (p d f : ℚ)
    (hp0 : 0 ≤ p) (hp1 : p ≤ 1) (hd : 1 < d) (hf : 0 ≤ f) :
    kelly_criterion p d f = some (max 0 (((d - 1) * p - (1 - p)) / (d - 1)) * f) ∧
    0 ≤ max 0 (((d - 1) * p - (1 - p)) / (d - 1)) * f ∧
    kelly_criterion (1/2) (3/2) (1/4) = some 0 := by
  have hb : d - 1 ≠ 0 := sub_ne_zero_of_ne (ne_of_gt hd)
  refine ⟨?_, mul_nonneg (le_max_left 0 _) hf, by norm_num [kelly_criterion]⟩
  unfold kelly_criterion
  rw [if_neg hb]
  simp only []
  by_cases hk : ((d - 1) * p - (1 - p)) / (d - 1) ≤ 0
  · rw [if_pos hk, max_eq_left hk, zero_mul]
  · rw [if_neg hk, max_eq_right (le_of_not_le hk)]

/-- C9 witness: the formula at `true_prob = 0.5`, `decimal_odds = 1.5`,
`fraction = 0.25`, where full Kelly is negative and clamps to zero. -/
theorem kelly_fractional_formula_witness :
    kelly_criterion (1/2) (3/2) (1/4) =
      some (max 0 ((((3:ℚ)/2 - 1) * (1/2) - (1 - 1/2)) / ((3:ℚ)/2 - 1)) * (1/4)) ∧
    0 ≤ max 0 ((((3:ℚ)/2 - 1) * (1/2) - (1 - 1/2)) / ((3:ℚ)/2 - 1)) * (1/4) ∧
    kelly_criterion (1/2) (3/2) (1/4) = some 0 :=
  kelly_fractional_formula (1/2) (3/2) (1/4)
    (by norm_num) (by norm_num) (by norm_num) (by norm_num)

/-- C3 counterexample: the spread-cover shrinkage uses effective
confidence `confidence × 0.6` (model.py lines 278-279), so at
confidence 1 a raw cover probability of 1 is shrunk to 4/5, not returned
unchanged — refuting the claim that at confidence 1 every shrunk
probability, spread cover included, equals its raw estimate. -/
theorem spread_shrinkage_not_identity_at_full_confidence :
    regress 1 ((1:ℚ) * (3/5)) = 4/5 ∧ ((4:ℚ)/5) ≠ 1 := by
  norm_num [regress]

/-- C3 (amended): the shrinkage `regress raw conf = raw·conf + 0.5·(1−conf)`
used for every probability of `estimate_probabilities` satisfies: at
confidence 0 it returns exactly 0.5 (so, when the computed confidence is 0,
the returned home-win, over and cover probabilities are all exactly 0.5),
and at confidence 1 it returns the raw estimate for home-win and over; the
spread-cover probability uses effective confidence `conf × 0.6`, so at
confidence 1 it equals `0.6·raw + 0.2`, which equals the raw estimate only
at raw = 0.5. -/
theorem shrinkage_identity (raw : ℚ) (gs : List (Game × ℚ)) (h a : String)
    (tl sl : Option ℚ) (hne : gs ≠ [])
    (hc : (estimate_probabilities gs h a tl sl).confidence = 0) :
    regress raw 0 = 1/2 ∧ regress raw 1 = raw ∧
    regress raw ((0:ℚ) * (3/5)) = 1/2 ∧
    regress raw ((1:ℚ) * (3/5)) = 3/5 * raw + 1/5 ∧
    (estimate_probabilities gs h a tl sl).home_win_prob = 1/2 ∧
    (estimate_probabilities gs h a tl sl).over_prob = 1/2 ∧
    (estimate_probabilities gs h a tl sl).home_cover_prob = 1/2 := by
  refine ⟨by unfold regress; ring, by unfold regress; ring,
    by unfold regress; ring, by unfold regress; ring, ?_, ?_, ?_⟩
  all_goals
    cases gs with
    | nil => exact absurd rfl hne
    | cons g rest =>
      simp only [estimate_probabilities] at hc ⊢
      rw [hc]
      unfold regress
      ring

/-- C3 witness: a single similar game with similarity 0 yields computed
confidence 0, and all three shrunk probabilities are exactly 0.5. -/
theorem shrinkage_identity_witness :
    regress (7/10) 0 = 1/2 ∧ regress (7/10) 1 = 7/10 ∧
    regress (7/10) ((0:ℚ) * (3/5)) = 1/2 ∧
    regress (7/10) ((1:ℚ) * (3/5)) = 3/5 * (7/10) + 1/5 ∧
    (estimate_probabilities [(⟨"X", "Y", true, 5, 1⟩, 0)] "H" "A" none none).home_win_prob = 1/2 ∧
    (estimate_probabilities [(⟨"X", "Y", true, 5, 1⟩, 0)] "H" "A" none none).over_prob = 1/2 ∧
    (estimate_probabilities [(⟨"X", "Y", true, 5, 1⟩, 0)] "H" "A" none none).home_cover_prob = 1/2 :=
  shrinkage_identity (7/10) [(⟨"X", "Y", true, 5, 1⟩, 0)] "H" "A" none none
    (by simp)
    (by norm_num [estimate_probabilities, List.filter_cons, List.filter_nil]
        rw [if_neg (by simp)]
        norm_num)

/-- C8: every output of `blend_model_and_market` has complementary
probabilities summing to 1 (home/away, over/under, cover/not-cover), and
so does every output of `estimate_probabilities` on a non-empty list
(whose `away_cover_prob` key is present and equals `1 − home_cover_prob`). -/
theorem complementary_probabilities_sum_to_one (me : Estimate) (mp : MarketProbs)
    (w : ℚ) (gs : List (Game × ℚ)) (h a : String) (tl sl : Option ℚ)
    (hne : gs ≠ []) :
    ((blend_model_and_market me mp w).home_win_prob +
      (blend_model_and_market me mp w).away_win_prob = 1 ∧
     (blend_model_and_market me mp w).over_prob +
      (blend_model_and_market me mp w).under_prob = 1 ∧
     (blend_model_and_market me mp w).home_cover_prob +
      (blend_model_and_market me mp w).away_cover_prob = 1) ∧
    ((estimate_probabilities gs h a tl sl).home_win_prob +
      (estimate_probabilities gs h a tl sl).away_win_prob = 1 ∧
     (estimate_probabilities gs h a tl sl).over_prob +
      (estimate_probabilities gs h a tl sl).under_prob = 1 ∧
     (estimate_probabilities gs h a tl sl).away_cover_prob =
      some (1 - (estimate_probabilities gs h a tl sl).home_cover_prob)) := by
  constructor
  · refine ⟨?_, ?_, ?_⟩ <;> (simp only [blend_model_and_market]; ring)
  · cases gs with
    | nil => exact absurd rfl hne
    | cons g rest =>
      refine ⟨?_, ?_, ?_⟩
      · simp only [estimate_probabilities]
        ring
      · simp only [estimate_probabilities]
        ring
      · simp only [estimate_probabilities]

/-- A concrete model estimate for instantiating blend/estimate theorems. -/
def sampleEstimate : Estimate :=
  { home_win_prob := 3/5
    away_win_prob := 2/5
    expected_total := 6
    over_prob := 11/20
    under_prob := 9/20
    home_cover_prob := 1/2
    n_games := 10
    confidence := 1/2 }

/-- A concrete similar-games list for instantiating estimate theorems. -/
def sampleGames : List (Game × ℚ) := [(⟨"X", "Y", true, 5, 1⟩, 1/2)]

/-- C8 witness: the complementary sums at a concrete blend input and a
concrete non-empty similar-games list. -/
theorem complementary_sums_witness :
    ((blend_model_and_market sampleEstimate {} (7/20)).home_win_prob +
      (blend_model_and_market sampleEstimate {} (7/20)).away_win_prob = 1 ∧
     (blend_model_and_market sampleEstimate {} (7/20)).over_prob +
      (blend_model_and_market sampleEstimate {} (7/20)).under_prob = 1 ∧
     (blend_model_and_market sampleEstimate {} (7/20)).home_cover_prob +
      (blend_model_and_market sampleEstimate {} (7/20)).away_cover_prob = 1) ∧
    ((estimate_probabilities sampleGames "H" "A" none none).home_win_prob +
      (estimate_probabilities sampleGames "H" "A" none none).away_win_prob = 1 ∧
     (estimate_probabilities sampleGames "H" "A" none none).over_prob +
      (estimate_probabilities sampleGames "H" "A" none none).under_prob = 1 ∧
     (estimate_probabilities sampleGames "H" "A" none none).away_cover_prob =
      some (1 - (estimate_probabilities sampleGames "H" "A" none none).home_cover_prob)) :=
  complementary_probabilities_sum_to_one sampleEstimate {} (7/20)
    sampleGames "H" "A" none none (by simp [sampleGames])

/-- C7: at the break-even price — `true_prob` equal to the implied
probability of the given American odds — `calculate_ev` returns edge 0 and
expected value exactly 0, for every odds with `|odds| ≥ 100` and every
positive stake. -/
theorem break_even_zero_edge (a : ℤ) (s : ℚ) (h100 : 100 ≤ |a|) (hs : 0 < s) :
    ∃ r, calculate_ev (american_to_implied_prob a) a s = some r ∧
      r.edge = 0 ∧ r.ev = 0 := by
  have hs0 : s ≠ 0 := ne_of_gt hs
  rcases lt_or_le a 0 with hneg | hpos
  · have haq : ((a : ℚ)) ≠ 0 := by
      exact_mod_cast (by omega : a ≠ 0)
    have habs : (0:ℚ) < |(a : ℚ)| := abs_pos.mpr haq
    have hdec : american_to_decimal a = some (1 + 100 / |(a : ℚ)|) := by
      unfold american_to_decimal
      rw [if_neg (by omega : ¬a > 0), if_neg (by omega : ¬a = 0)]
    have himp : american_to_implied_prob a = |(a : ℚ)| / (|(a : ℚ)| + 100) := by
      unfold american_to_implied_prob
      rw [if_pos hneg]
    simp only [calculate_ev, hdec, if_neg hs0]
    refine ⟨_, rfl, sub_self _, ?_⟩
    show american_to_implied_prob a * (s * (1 + 100 / |(a : ℚ)| - 1)) -
      (1 - american_to_implied_prob a) * s = 0
    rw [himp]
    have hd : (0:ℚ) < |(a : ℚ)| + 100 := by positivity
    field_simp
    ring
  · rw [abs_of_nonneg hpos] at h100
    have hgt : a > 0 := by omega
    have haq : (0:ℚ) < (a : ℚ) := by exact_mod_cast hgt
    have hdec : american_to_decimal a = some (1 + (a : ℚ) / 100) := by
      unfold american_to_decimal
      rw [if_pos hgt]
    have himp : american_to_implied_prob a = 100 / ((a : ℚ) + 100) := by
      unfold american_to_implied_prob
      rw [if_neg (by omega : ¬a < 0)]
    simp only [calculate_ev, hdec, if_neg hs0]
    refine ⟨_, rfl, sub_self _, ?_⟩
    show american_to_implied_prob a * (s * (1 + (a : ℚ) / 100 - 1)) -
      (1 - american_to_implied_prob a) * s = 0
    rw [himp]
    have hd : (0:ℚ) < (a : ℚ) + 100 := by positivity
    field_simp
    ring

/-- C7 witness: break-even at odds −110 and stake 1. -/
theorem break_even_zero_edge_witness :
    ∃ r, calculate_ev (american_to_implied_prob (-110)) (-110) 1 = some r ∧
      r.edge = 0 ∧ r.ev = 0 :=
  break_even_zero_edge (-110) 1 (by norm_num) (by norm_num)

/-- C10: for `|odds| ≥ 100` and positive stake, `calculate_ev` returns a
result whose implied probability is the reciprocal of its decimal odds,
whose EV factors as `stake · decimal_odds · edge`, and whose
`is_positive_ev` flag holds exactly when the edge is positive. -/
theorem ev_decomposition (a : ℤ) (p s : ℚ) (h100 : 100 ≤ |a|) (hs : 0 < s) :
    ∃ r, calculate_ev p a s = some r ∧
      r.implied_prob = 1 / r.decimal_odds ∧
      r.ev = s * r.decimal_odds * r.edge ∧
      (r.is_positive_ev = true ↔ 0 < r.edge) := by
  have hs0 : s ≠ 0 := ne_of_gt hs
  rcases lt_or_le a 0 with hneg | hpos
  · have haq : ((a : ℚ)) ≠ 0 := by
      exact_mod_cast (by omega : a ≠ 0)
    have habs : (0:ℚ) < |(a : ℚ)| := abs_pos.mpr haq
    have hdec : american_to_decimal a = some (1 + 100 / |(a : ℚ)|) := by
      unfold american_to_decimal
      rw [if_neg (by omega : ¬a > 0), if_neg (by omega : ¬a = 0)]
    have himp : american_to_implied_prob a = |(a : ℚ)| / (|(a : ℚ)| + 100) := by
      unfold american_to_implied_prob
      rw [if_pos hneg]
    have hdpos : (0:ℚ) < 1 + 100 / |(a : ℚ)| := by positivity
    have hsum : (0:ℚ) < |(a : ℚ)| + 100 := by positivity
    simp only [calculate_ev, hdec, if_neg hs0]
    refine ⟨_, rfl, ?_, ?_, ?_⟩
    · show american_to_implied_prob a = 1 / (1 + 100 / |(a : ℚ)|)
      rw [himp]
      field_simp
    · show p * (s * (1 + 100 / |(a : ℚ)| - 1)) - (1 - p) * s =
        s * (1 + 100 / |(a : ℚ)|) * (p - american_to_implied_prob a)
      rw [himp]
      field_simp
      ring
    · show decide (p * (s * (1 + 100 / |(a : ℚ)| - 1)) - (1 - p) * s > 0) = true ↔
        0 < p - american_to_implied_prob a
      rw [decide_eq_true_iff]
      have hev : p * (s * (1 + 100 / |(a : ℚ)| - 1)) - (1 - p) * s =
          s * (1 + 100 / |(a : ℚ)|) * (p - american_to_implied_prob a) := by
        rw [himp]
        field_simp
        ring
      rw [hev]
      exact mul_pos_iff_of_pos_left (by positivity)
  · rw [abs_of_nonneg hpos] at h100
    have hgt : a > 0 := by omega
    have haq : (0:ℚ) < (a : ℚ) := by exact_mod_cast hgt
    have hdec : american_to_decimal a = some (1 + (a : ℚ) / 100) := by
      unfold american_to_decimal
      rw [if_pos hgt]
    have himp : american_to_implied_prob a = 100 / ((a : ℚ) + 100) := by
      unfold american_to_implied_prob
      rw [if_neg (by omega : ¬a < 0)]
    have hdpos : (0:ℚ) < 1 + (a : ℚ) / 100 := by positivity
    have hsum : (0:ℚ) < (a : ℚ) + 100 := by positivity
    simp only [calculate_ev, hdec, if_neg hs0]
    refine ⟨_, rfl, ?_, ?_, ?_⟩
    · show american_to_implied_prob a = 1 / (1 + (a : ℚ) / 100)
      rw [himp]
      rw [div_eq_div_iff (ne_of_gt hsum) (ne_of_gt hdpos)]
      ring
    · show p * (s * (1 + (a : ℚ) / 100 - 1)) - (1 - p) * s =
        s * (1 + (a : ℚ) / 100) * (p - american_to_implied_prob a)
      rw [himp]
      field_simp
      ring
    · show decide (p * (s * (1 + (a : ℚ) / 100 - 1)) - (1 - p) * s > 0) = true ↔
        0 < p - american_to_implied_prob a
      rw [decide_eq_true_iff]
      have hev : p * (s * (1 + (a : ℚ) / 100 - 1)) - (1 - p) * s =
          s * (1 + (a : ℚ) / 100) * (p - american_to_implied_prob a) := by
        rw [himp]
        field_simp
        ring
      rw [hev]
      exact mul_pos_iff_of_pos_left (by positivity)

/-- C10 witness: the decomposition at odds +120, probability 0.5, stake 2. -/
theorem ev_decomposition_witness :
    ∃ r, calculate_ev (1/2) 120 2 = some r ∧
      r.implied_prob = 1 / r.decimal_odds ∧
      r.ev = 2 * r.decimal_odds * r.edge ∧
      (r.is_positive_ev = true ↔ 0 < r.edge) :=
  ev_decomposition 120 (1/2) 2 (by norm_num) (by norm_num)

/-- A clamped factor `1 − min(y, 1)` with `y ≥ 0` lies in `[0, 1]`. -/
theorem one_sub_min_mem_unit (y : ℚ) (hy : 0 ≤ y) :
    0 ≤ 1 - min y 1 ∧ 1 - min y 1 ≤ 1 :=
  ⟨by linarith [min_le_right y 1], by linarith [le_min hy zero_le_one]⟩

/-- C4: `calculate_similarity` always returns a value in `[0, 1]`; and
when the current and historical profiles agree on both sides and the
historical game is the identical matchup (same home team, same away
team), it returns exactly 1. -/
theorem similarity_in_unit_interval (hs as hhs has : Stats) (g : Game)
    (ch ca : String) :
    (0 ≤ calculate_similarity hs as hhs has g ch ca ∧
     calculate_similarity hs as hhs has g ch ca ≤ 1) ∧
    (hs = hhs → as = has → g.home_team = ch → g.away_team = ca →
      calculate_similarity hs as hhs has g ch ca = 1) := by
  constructor
  · have q1 := one_sub_min_mem_unit
      |hs.win_pct - as.win_pct - (hhs.win_pct - has.win_pct)| (abs_nonneg _)
    have q2 := one_sub_min_mem_unit (|hs.avg_gf - hhs.avg_gf| / 3) (by positivity)
    have q3 := one_sub_min_mem_unit (|as.avg_gf - has.avg_gf| / 3) (by positivity)
    have q4 := one_sub_min_mem_unit (|hs.avg_ga - hhs.avg_ga| / 3) (by positivity)
    have q5 := one_sub_min_mem_unit (|as.avg_ga - has.avg_ga| / 3) (by positivity)
    have q6 : (0:ℚ) ≤ max (1 -
        (|hs.points_pct - hhs.points_pct| + |as.points_pct - has.points_pct|) / 2) 0 :=
      le_max_right _ _
    have q7 : max (1 -
        (|hs.points_pct - hhs.points_pct| + |as.points_pct - has.points_pct|) / 2) 0 ≤ 1 := by
      apply max_le _ zero_le_one
      have := abs_nonneg (hs.points_pct - hhs.points_pct)
      have := abs_nonneg (as.points_pct - has.points_pct)
      linarith
    unfold calculate_similarity
    rw [if_pos (by norm_num : ((3:ℚ) + 2 + 2 + 2 + 2 + 2 + 2) > 0)]
    split
    · constructor
      · apply div_nonneg _ (by norm_num)
        linarith [q1.1, q2.1, q3.1, q4.1, q5.1]
      · rw [div_le_one (by norm_num)]
        linarith [q1.2, q2.2, q3.2, q4.2, q5.2]
    · split
      · constructor
        · apply div_nonneg _ (by norm_num)
          linarith [q1.1, q2.1, q3.1, q4.1, q5.1]
        · rw [div_le_one (by norm_num)]
          linarith [q1.2, q2.2, q3.2, q4.2, q5.2]
      · constructor
        · apply div_nonneg _ (by norm_num)
          linarith [q1.1, q2.1, q3.1, q4.1, q5.1]
        · rw [div_le_one (by norm_num)]
          linarith [q1.2, q2.2, q3.2, q4.2, q5.2]
  · intro e1 e2 e3 e4
    subst e1
    subst e2
    unfold calculate_similarity
    rw [if_pos (by norm_num : ((3:ℚ) + 2 + 2 + 2 + 2 + 2 + 2) > 0),
      if_pos ⟨e3, e4⟩]
    simp only [sub_self, abs_zero, zero_div]
    norm_num

/-- C4 witness: identical league-average profiles on both sides and the
identical matchup give similarity exactly 1 (and it is within bounds). -/
theorem similarity_in_unit_interval_witness :
    calculate_similarity ⟨1/2, 3, 3, 1/2⟩ ⟨1/2, 3, 3, 1/2⟩ ⟨1/2, 3, 3, 1/2⟩
      ⟨1/2, 3, 3, 1/2⟩ ⟨"H", "A", true, 5, 1⟩ "H" "A" = 1 ∧
    0 ≤ calculate_similarity ⟨1/2, 3, 3, 1/2⟩ ⟨1/2, 3, 3, 1/2⟩ ⟨1/2, 3, 3, 1/2⟩
      ⟨1/2, 3, 3, 1/2⟩ ⟨"H", "A", true, 5, 1⟩ "H" "A" :=
  ⟨(similarity_in_unit_interval ⟨1/2, 3, 3, 1/2⟩ ⟨1/2, 3, 3, 1/2⟩ ⟨1/2, 3, 3, 1/2⟩
      ⟨1/2, 3, 3, 1/2⟩ ⟨"H", "A", true, 5, 1⟩ "H" "A").2 rfl rfl rfl rfl,
   (similarity_in_unit_interval ⟨1/2, 3, 3, 1/2⟩ ⟨1/2, 3, 3, 1/2⟩ ⟨1/2, 3, 3, 1/2⟩
      ⟨1/2, 3, 3, 1/2⟩ ⟨"H", "A", true, 5, 1⟩ "H" "A").1.1⟩

/-- Every bet kept by `tryMarket` passed both edge filters. -/
theorem tryMarket_mem_edge (gl bt bk : String) (odds : ℤ)
    (tp st me mx cf : ℚ) (l : List Bet) (b : Bet)
    (hl : tryMarket gl bt bk odds tp st me mx cf = some l) (hb : b ∈ l) :
    me ≤ b.edge ∧ b.edge ≤ mx := by
  unfold tryMarket at hl
  cases he : calculate_ev tp odds st with
  | none =>
    rw [he] at hl
    exact Option.noConfusion hl
  | some e =>
    rw [he] at hl
    injection hl with h2
    subst h2
    by_cases hc : me ≤ e.edge ∧ e.edge ≤ mx
    · rw [if_pos hc] at hb
      simp only [List.mem_singleton] at hb
      subst hb
      exact hc
    · rw [if_neg hc] at hb
      exact absurd hb (List.not_mem_nil b)

/-- Every bet produced for an optional moneyline side passed both edge
filters. -/
theorem evalEntry_mem_edge (gl bt : String) (entry : Option OddsEntry)
    (tp st me mx cf : ℚ) (l : List Bet) (b : Bet)
    (hl : evalEntry gl bt entry tp st me mx cf = some l) (hb : b ∈ l) :
    me ≤ b.edge ∧ b.edge ≤ mx := by
  cases entry with
  | none =>
    unfold evalEntry at hl
    injection hl with h2
    subst h2
    exact absurd hb (List.not_mem_nil b)
  | some e => exact tryMarket_mem_edge gl bt e.book e.price tp st me mx cf l b hl hb

/-- Every bet produced for an optional spread/total side passed both edge
filters. -/
theorem evalPoint_mem_edge (gl bt : String) (entry : Option PointEntry)
    (tp st me mx cf : ℚ) (l : List Bet) (b : Bet)
    (hl : evalPoint gl bt entry tp st me mx cf = some l) (hb : b ∈ l) :
    me ≤ b.edge ∧ b.edge ≤ mx := by
  cases entry with
  | none =>
    unfold evalPoint at hl
    injection hl with h2
    subst h2
    exact absurd hb (List.not_mem_nil b)
  | some e => exact tryMarket_mem_edge gl bt e.book e.price tp st me mx cf l b hl hb

/-- A spread market guarded by the conservative toggle also yields only
bets that passed both edge filters. -/
theorem condSpread_mem_edge (cons : Bool) (gl bt : String)
    (entry : Option PointEntry) (tp st me mx cf : ℚ) (l : List Bet) (b : Bet)
    (hl : condSpread cons gl bt entry tp st me mx cf = some l)
    (hb : b ∈ l) :
    me ≤ b.edge ∧ b.edge ≤ mx := by
  unfold condSpread at hl
  cases cons with
  | true =>
    simp only [if_pos] at hl
    injection hl with h2
    subst h2
    exact absurd hb (List.not_mem_nil b)
  | false =>
    simp only [Bool.false_eq_true, if_false] at hl
    exact evalPoint_mem_edge gl bt entry tp st me mx cf l b hl hb

/-- With no theScore entry in the odds, `_evaluate_thescore_odds`
contributes nothing. -/
theorem thescore_none_eval (gl h a : String) (bp : Blended) (bo : BestOdds)
    (st me : ℚ) (hts : bo.thescore = none) :
    evaluate_thescore_odds gl h a bp bo st me = some [] := by
  unfold evaluate_thescore_odds
  rw [hts]

/-- C1 (amended): the `max_edge` cap governs only the six best-odds
markets — when `best_odds` carries no theScore entry, every candidate
returned by `evaluate_all_bets` satisfies `min_edge ≤ edge ≤ max_edge`;
theScore candidates are filtered by `min_edge` alone and are not capped. -/
theorem edge_cap_for_non_thescore_candidates
    (game_label home_team away_team : String) (bp : Blended) (bo : BestOdds)
    (stake min_edge min_confidence : ℚ) (conservative : Bool) (max_edge : ℚ)
    (hts : bo.thescore = none) :
    ((evaluate_all_bets game_label home_team away_team bp bo stake min_edge
        min_confidence conservative max_edge).getD []).all
      (fun b => decide (min_edge ≤ b.edge ∧ b.edge ≤ max_edge)) = true := by
  cases hres : evaluate_all_bets game_label home_team away_team bp bo stake
      min_edge min_confidence conservative max_edge with
  | none => rfl
  | some bets =>
    suffices hall : ∀ b ∈ bets, min_edge ≤ b.edge ∧ b.edge ≤ max_edge by
      simp only [Option.getD_some, List.all_eq_true, decide_eq_true_eq]
      exact hall
    have hme : min_edge ≤ effectiveMinEdge conservative min_edge := by
      unfold effectiveMinEdge
      cases conservative with
      | true => simp only [if_pos]; exact le_max_left _ _
      | false => simp
    intro b hb
    unfold evaluate_all_bets at hres
    split at hres
    · injection hres with h2
      subst h2
      exact absurd hb (List.not_mem_nil b)
    · rw [thescore_none_eval game_label home_team away_team bp bo stake _ hts] at hres
      split at hres
      next => exact Option.noConfusion hres
      next ml_home heq1 =>
      split at hres
      next => exact Option.noConfusion hres
      next ml_away heq2 =>
      split at hres
      next => exact Option.noConfusion hres
      next sp_home heq3 =>
      split at hres
      next => exact Option.noConfusion hres
      next sp_away heq4 =>
      split at hres
      next => exact Option.noConfusion hres
      next t_over heq5 =>
      split at hres
      next => exact Option.noConfusion hres
      next t_under heq6 =>
      injection hres with h2
      subst h2
      rw [mem_sortKeep] at hb
      simp only [List.mem_append] at hb
      have step :
          (effectiveMinEdge conservative min_edge ≤ b.edge ∧ b.edge ≤ max_edge) →
          min_edge ≤ b.edge ∧ b.edge ≤ max_edge :=
        fun h2 => ⟨le_trans hme h2.1, h2.2⟩
      rcases hb with ((((((hb | hb) | hb) | hb) | hb) | hb) | hb)
      · exact step (evalEntry_mem_edge _ _ _ _ _ _ _ _ _ b heq1 hb)
      · exact step (evalEntry_mem_edge _ _ _ _ _ _ _ _ _ b heq2 hb)
      · exact step (condSpread_mem_edge conservative _ _ _ _ _ _ _ _ _ b heq3 hb)
      · exact step (condSpread_mem_edge conservative _ _ _ _ _ _ _ _ _ b heq4 hb)
      · exact step (evalPoint_mem_edge _ _ _ _ _ _ _ _ _ b heq5 hb)
      · exact step (evalPoint_mem_edge _ _ _ _ _ _ _ _ _ b heq6 hb)
      · exact absurd hb (List.not_mem_nil b)

/-- C1 counterexample: with blended home-win probability 0.9, confidence
0.4 and a theScore home moneyline at +100 (edge 0.4), `evaluate_all_bets`
with the default `max_edge = 0.15` returns a candidate whose edge exceeds
`max_edge` — because `_evaluate_thescore_odds` never applies the cap. -/
theorem thescore_candidate_exceeds_max_edge :
    ((evaluate_all_bets "g" "H" "A"
        { home_win_prob := 9/10, away_win_prob := 1/10, over_prob := 1/2,
          under_prob := 1/2, home_cover_prob := 1/2, away_cover_prob := 1/2,
          model_confidence := 2/5, effective_model_weight := 0 }
        { thescore := some { ml_home := some 100 } }
        1 (1/50) (3/10) false (3/20)).getD []).any
      (fun b => decide ((3/20 : ℚ) < b.edge)) = true := by
  norm_num [evaluate_all_bets, evalEntry, evalPoint, condSpread, effectiveMinEdge,
    tryMarket, tryThescoreMl, evaluate_thescore_odds, mkBet, calculate_ev,
    american_to_decimal, american_to_implied_prob, sortKeep, insertKeep]

/-- C1 witness: a concrete odds structure with no theScore entry and a
home moneyline at +100 against blended probability 0.6 (edge 0.1); every
returned candidate lies between the default `min_edge` and `max_edge`. -/
theorem edge_cap_for_non_thescore_candidates_witness :
    ((evaluate_all_bets "g" "H" "A"
        { home_win_prob := 3/5, away_win_prob := 2/5, over_prob := 1/2,
          under_prob := 1/2, home_cover_prob := 1/2, away_cover_prob := 1/2,
          model_confidence := 2/5, effective_model_weight := 0 }
        { moneyline_home := some { price := 100, book := "bk" } }
        1 (1/50) (3/10) false (3/20)).getD []).all
      (fun b => decide ((1/50 : ℚ) ≤ b.edge ∧ b.edge ≤ 3/20)) = true :=
  edge_cap_for_non_thescore_candidates "g" "H" "A"
    { home_win_prob := 3/5, away_win_prob := 2/5, over_prob := 1/2,
      under_prob := 1/2, home_cover_prob := 1/2, away_cover_prob := 1/2,
      model_confidence := 2/5, effective_model_weight := 0 }
    { moneyline_home := some { price := 100, book := "bk" } }
    1 (1/50) (3/10) false (3/20) rfl

/-- C2: in conservative mode a matchup with model confidence 0.4 — below
the claimed conservative floor of 0.5 but above the default
`min_confidence = 0.3` — still produces a candidate: the source raises
`min_confidence` only after the confidence gate has already run, so the
raised floor is never consulted (dead store at ev_calculator.py line 78). -/
theorem conservative_gate_not_raised :
    ((2:ℚ)/5 < 1/2) ∧
    ((evaluate_all_bets "g" "H" "A"
        { home_win_prob := 3/5, away_win_prob := 2/5, over_prob := 1/2,
          under_prob := 1/2, home_cover_prob := 1/2, away_cover_prob := 1/2,
          model_confidence := 2/5, effective_model_weight := 0 }
        { moneyline_home := some { price := 100, book := "bk" } }
        1 (1/50) (3/10) true (3/20)).getD []).length = 1 := by
  constructor
  · norm_num
  · norm_num [evaluate_all_bets, evalEntry, evalPoint, condSpread, effectiveMinEdge,
      tryMarket, tryThescoreMl, evaluate_thescore_odds, mkBet, calculate_ev,
      american_to_decimal, american_to_implied_prob, sortKeep, insertKeep]
